import Mathlib

/-!
Shallow embedding of `PyPlugInMgr` (`src/PluginMgr/__init__.py`) and
verification of its specification claims.

The embedding models:
* Python `dict` as an association list with Python assignment semantics
  (overwrite in place when the key is present, append otherwise);
* a plugin directory as an ordered list of (file name, file behaviour)
  pairs, where a file's behaviour is what executing its top-level code
  does (bind names, or raise);
* `os.path.splitext`, string suffix matching for `Path.glob("*" + ext)`
  (the extension is taken literally, with no glob metacharacters), and
  substring search for statements about error messages;
* the class `PlugInMgr` with its methods `findcandidate_files`,
  `get_installed_config`, `get_plugin`, `get` and `has`.

Process-global effects that no claim mentions are not tracked: the
`sys.path.append(str(self.plugin_dir))` call at the start of
`findcandidate_files`, and the `mkdir` performed by `__init__` when
`allow_creation` is true (the directory contents are instead supplied
explicitly to each discovery call, which also covers files changing
between calls).
-/

namespace PyPluginMgr

/-- A Python runtime value, as far as the manager ever observes one.
Functions, classes, loader objects and the like are opaque to the
manager, so they are represented by a tag only. -/
inductive Value where
  | vint : Int → Value
  | vstr : String → Value
  | vnone : Value
  | vobj : String → Value
deriving DecidableEq

/-- A Python `dict` with `String` keys, in insertion order. -/
abbrev Dict (α : Type) := List (String × α)

/-- Python dict lookup `d[k]` / `d.get(k)` (keys are unique in any dict
built by the code below, so first-match lookup is exact). -/
def dlookup {α : Type} (k : String) : Dict α → Option α
  | [] => none
  | (k', v) :: d => if k' = k then some v else dlookup k d

/-- Python `k in d`. -/
def dmem {α : Type} (k : String) (d : Dict α) : Bool :=
  (dlookup k d).isSome

/-- Python dict assignment `d[k] = v`: overwrite in place when the key is
present (keeping its position), append otherwise. -/
def dinsert {α : Type} (k : String) (v : α) : Dict α → Dict α
  | [] => [(k, v)]
  | (k', v') :: d => if k' = k then (k, v) :: d else (k', v') :: dinsert k v d

/-- The key list of a dict. -/
def keys {α : Type} (d : Dict α) : List String :=
  d.map Prod.fst

/-- `matchesAt pat cs`: `pat` occurs at the start of `cs`. -/
def matchesAt : List Char → List Char → Bool
  | [], _ => true
  | _ :: _, [] => false
  | a :: as, b :: bs => a == b && matchesAt as bs

/-- `hasSubList pat cs`: `pat` occurs somewhere inside `cs`. -/
def hasSubList (pat : List Char) : List Char → Bool
  | [] => matchesAt pat []
  | c :: rest => matchesAt pat (c :: rest) || hasSubList pat rest

/-- Python `sub in s` on strings: substring occurrence. -/
def strContains (s sub : String) : Bool :=
  hasSubList sub.toList s.toList

/-- `s.endswith(suffix)`; this is also exactly which names the glob
pattern `"*" + suffix` matches when `suffix` has no glob metacharacters
(`*` matches any sequence of characters, the empty one included, and
`pathlib.Path.glob` does not exempt names starting with a dot). -/
def strEndsWith (s suffix : String) : Bool :=
  matchesAt suffix.toList.reverse s.toList.reverse

/-- `os.path.splitext` on a bare file name (no path separator): split at
the last dot, except that a name whose characters before the last dot
are all dots (e.g. `".py"`, `"..py"`) has no extension.
`splitextAux` returns the split at the last dot when there is one. -/
def splitextAux : List Char → Option (List Char × List Char)
  | [] => none
  | c :: cs =>
    match splitextAux cs with
    | some (st, ex) => some (c :: st, ex)
    | none => if c = '.' then some ([], c :: cs) else none

/-- `os.path.splitext name = (stem, extension)`. -/
def splitext (name : String) : String × String :=
  match splitextAux name.toList with
  | none => (name, "")
  | some (st, ex) =>
    if st.all (fun c => c = '.') then (name, "") else (String.mk st, String.mk ex)

/-- `os.path.join` / `pathlib`'s `dir / name` as used on the plugin
directory (POSIX separator). -/
def joinPath (a b : String) : String :=
  a ++ "/" ++ b

/-- A Python exception, by class and message, as far as the manager
distinguishes them. `otherError` carries the class name of any exception
class the code never tests for. -/
inductive PyError where
  | fileNotFoundError : String → PyError
  | attributeError : String → PyError
  | importError : String → PyError
  | otherError : String → String → PyError
deriving DecidableEq

/-- What executing a plugin file's top-level code does: bind the listed
names in order (later bindings of the same name overwrite earlier ones),
or raise an exception. -/
inductive ExecOutcome where
  | ok : Dict Value → ExecOutcome
  | raises : PyError → ExecOutcome
deriving DecidableEq

/-- The contents of the plugin directory: (file name, behaviour) pairs in
enumeration (`os.scandir`) order. -/
abbrev Directory := List (String × ExecOutcome)

/-- A loaded, executed module object: its namespace (`__dict__`). -/
structure PyModule where
  attrs : Dict Value
deriving DecidableEq

/-- A catalog entry: the Python code stores the 2-element list
`[module, dict(inspect.getmembers(module))]`. -/
structure PluginEntry where
  handle : PyModule
  attrs : Dict Value
deriving DecidableEq

/-- The attributes a fresh module object carries once `module_from_spec`
has created it and `exec_module` has installed `__builtins__`, before the
file's own top-level statements run: the implicit dunder names. -/
def initModuleAttrs (specName filePath : String) : Dict Value :=
  [("__name__", Value.vstr specName),
   ("__doc__", Value.vnone),
   ("__package__", Value.vstr ""),
   ("__loader__", Value.vobj "SourceFileLoader"),
   ("__spec__", Value.vobj "ModuleSpec"),
   ("__file__", Value.vstr filePath),
   ("__builtins__", Value.vobj "builtins")]

/-- Executing the file's top-level bindings into the module namespace. -/
def execIntoModule (base : Dict Value) (binds : Dict Value) : Dict Value :=
  binds.foldl (fun d p => dinsert p.1 p.2 d) base

/-- `dict(inspect.getmembers(module))`: the same name-to-value mapping as
the module namespace (`getmembers` sorts the pairs by name, which does
not change the resulting dict as a mapping; no claim observes order). -/
def getmembers (m : PyModule) : Dict Value :=
  m.attrs

/-- `spec_from_file_location` selects a loader from the location's file
suffix; only `".py"` source files get one (importlib `SOURCE_SUFFIXES`;
the module docstring itself notes that `plug_ext` must be `.py`). When no
loader is found the spec is `None` and `module_from_spec(None)` raises
`AttributeError`. -/
def sourceLoaderFor (name : String) : Bool :=
  strEndsWith name ".py"

/-- The state of a `PlugInMgr` instance. -/
structure PlugInMgr where
  plugin_dir : String
  candidate_files : List String
  plug_ext : String
  catalog : Dict PluginEntry
deriving DecidableEq

/-- `PlugInMgr.__init__`: `self.plugin_dir = pathlib.Path.cwd() / plugin_dir`,
empty candidate list and catalog. `allow_creation` only drives the
one-time `mkdir` side effect on the real filesystem, which is outside the
model (the directory listing is an input of each discovery call). -/
def PlugInMgr.init (cwd plugin_dir : String) (_allow_creation : Bool)
    (plug_ext : String) : PlugInMgr :=
  { plugin_dir := joinPath cwd plugin_dir
    candidate_files := []
    plug_ext := plug_ext
    catalog := [] }

/-- `PlugInMgr.get_installed_config(config_file)`: resolve
`self.plugin_dir / config_file`; raise `FileNotFoundError` naming the
location when it does not exist; otherwise create the module from a spec
(raising `AttributeError` when the suffix yields no loader, since the
spec is then `None`) and execute its top-level code, propagating anything
that code raises. Takes `self.plugin_dir` as its first argument. -/
def get_installed_config (dir : Directory) (plugin_dir : String)
    (config_file : String) : Except PyError PyModule :=
  let config_path := joinPath plugin_dir config_file
  match dlookup config_file dir with
  | none =>
      Except.error (PyError.fileNotFoundError
        ("No file found at location " ++ config_path))
  | some outcome =>
      if sourceLoaderFor config_file then
        match outcome with
        | ExecOutcome.ok binds =>
            Except.ok { attrs := execIntoModule (initModuleAttrs config_file config_path) binds }
        | ExecOutcome.raises e => Except.error e
      else
        Except.error (PyError.attributeError
          "NoneType object has no attribute loader")

/-- The `except AttributeError: raise ImportError(...)` clause of
`findcandidate_files`: an `AttributeError` escaping the try block is
replaced by an `ImportError` naming the file; every other exception
propagates unchanged. -/
def wrapError (base_filename : String) : PyError → PyError
  | PyError.attributeError _ =>
      PyError.importError ("Unable to import Plugin Module - " ++ base_filename)
  | e => e

/-- The names the glob `self.plugin_dir.glob("*" + self.plug_ext)` yields,
in directory enumeration order. -/
def globCandidates (ext : String) (dir : Directory) : List String :=
  (dir.filter (fun p => strEndsWith p.1 ext)).map Prod.fst

/-- The catalog value stored for a loaded module: the Python list
`[module, dict(inspect.getmembers(module))]`. -/
def mkEntry (mod : PyModule) : PluginEntry :=
  { handle := mod, attrs := getmembers mod }

/-- The body of the `for x in cfiles:` loop of `findcandidate_files`,
over the remaining candidate names. Each iteration appends `str(x)` (the
full path) to `self.candidate_files`, loads the file, and on success
stores `[module, dict(inspect.getmembers(module))]` in `self.catalog`
under `os.path.splitext(base_filename)[0]`. A raised exception ends the
loop at once: the returned state is the mutations made so far, paired
with the exception (after the `except AttributeError` rewrite). -/
def processCandidates (dir : Directory) : PlugInMgr → List String → PlugInMgr × Option PyError
  | m, [] => (m, none)
  | m, x :: rest =>
    match get_installed_config dir m.plugin_dir x with
    | Except.ok mod =>
        processCandidates dir
          { m with
            candidate_files := m.candidate_files ++ [joinPath m.plugin_dir x],
            catalog := dinsert (splitext x).1 (mkEntry mod) m.catalog } rest
    | Except.error e =>
        ({ m with candidate_files := m.candidate_files ++ [joinPath m.plugin_dir x] },
         some (wrapError x e))

/-- `PlugInMgr.findcandidate_files()`: reset `self.candidate_files` to an
empty list, then run the loop over the glob matches. Returns the state of
the manager when the call ends together with the exception it raises, if
any. (The `sys.path.append` side effect is process-global and untracked.) -/
def findcandidate_files (dir : Directory) (m : PlugInMgr) : PlugInMgr × Option PyError :=
  processCandidates dir { m with candidate_files := [] } (globCandidates m.plug_ext dir)

/-- `PlugInMgr.get_plugin(plugin_name)`: the module handle, or `None`. -/
def PlugInMgr.get_plugin (m : PlugInMgr) (plugin_name : String) : Option PyModule :=
  match dlookup plugin_name m.catalog with
  | some entry => some entry.handle
  | none => none

/-- `PlugInMgr.has(plugin_name, object_name)`: `object_name in
self.catalog[plugin_name][1]` when the plugin is cataloged, `None`
otherwise. -/
def PlugInMgr.has (m : PlugInMgr) (plugin_name object_name : String) : Option Bool :=
  match dlookup plugin_name m.catalog with
  | some entry => some (dmem object_name entry.attrs)
  | none => none

/-- Python truthiness of the value `has` returns (`None` and `False` are
falsy, `True` is truthy). -/
def pyTruthy : Option Bool → Bool
  | some b => b
  | none => false

/-- `PlugInMgr.get(plugin_name, object_name, default_value)`: when
`self.has(...)` is truthy, `self.catalog[plugin_name][1][object_name]`;
otherwise `default_value`. A failed dict indexing would be a raised
`KeyError`, modelled as the `Except.error` branch. -/
def PlugInMgr.get (m : PlugInMgr) (plugin_name object_name : String)
    (default_value : Value) : Except String Value :=
  if pyTruthy (m.has plugin_name object_name) then
    match dlookup plugin_name m.catalog with
    | some entry =>
        match dlookup object_name entry.attrs with
        | some v => Except.ok v
        | none => Except.error "KeyError"
    | none => Except.error "KeyError"
  else
    Except.ok default_value

/-- Whether loading candidate `x` succeeds; depends only on the directory
contents and the plugin directory path, never on the manager's mutable
state. -/
def loadOk (dir : Directory) (pd x : String) : Bool :=
  match get_installed_config dir pd x with
  | Except.ok _ => true
  | Except.error _ => false

/-- The effect of one successful loop iteration on the catalog (and no
effect when the load fails, since the loop then raises before the
assignment). -/
def commitStep (dir : Directory) (pd : String) (c : Dict PluginEntry) (x : String) :
    Dict PluginEntry :=
  match get_installed_config dir pd x with
  | Except.ok mod => dinsert (splitext x).1 (mkEntry mod) c
  | Except.error _ => c

/-- The message text of an exception (what `str(exc)` shows; the file
name is part of it only if the raising code put it there). -/
def errText : PyError → String
  | PyError.fileNotFoundError msg => msg
  | PyError.attributeError msg => msg
  | PyError.importError msg => msg
  | PyError.otherError _ msg => msg

/-- Every cataloged entry's attributes snapshot contains the implicit
dunder names `__name__` and `__doc__`. -/
def dunderInv (m : PlugInMgr) : Prop :=
  ∀ p e, dlookup p m.catalog = some e →
    dmem "__name__" e.attrs = true ∧ dmem "__doc__" e.attrs = true

/-! ### Concrete states used by witnesses and counterexamples -/

/-- A concrete catalog entry used to witness the `get` claim. -/
def sampleEntry : PluginEntry :=
  { handle := { attrs := [("VALUE", Value.vint 42)] }
    attrs := [("VALUE", Value.vint 42)] }

/-- A concrete manager state used to witness the `get` claim. -/
def sampleMgr : PlugInMgr :=
  { plugin_dir := "/cwd/Plugins", candidate_files := [], plug_ext := ".py",
    catalog := [("alpha", sampleEntry)] }

/-- A freshly constructed manager for a `.py` plugin directory. -/
def mgrPy : PlugInMgr :=
  PlugInMgr.init "/cwd" "Plugins" false ".py"

/-- A directory whose second candidate raises `ZeroDivisionError` at top
level; the third candidate would load fine. -/
def dirAbort : Directory :=
  [("ok.py", ExecOutcome.ok [("VALUE", Value.vint 42)]),
   ("bad.py", ExecOutcome.raises (PyError.otherError "ZeroDivisionError" "division by zero")),
   ("after.py", ExecOutcome.ok [])]

/-- Two well-behaved plugins. -/
def dirTwo : Directory :=
  [("alpha.py", ExecOutcome.ok [("VALUE", Value.vint 42)]),
   ("beta.py", ExecOutcome.ok [])]

/-- Two distinct file names, both ending in `.py`, that
`os.path.splitext` maps to the same stem `".py"` (a name whose leading
characters up to the last dot are all dots has no extension). -/
def dirDotPy : Directory :=
  [(".py", ExecOutcome.ok []), (".py.py", ExecOutcome.ok [])]

/-- A manager configured with the multi-dot extension `".plugin.py"`. -/
def mgrPluginExt : PlugInMgr :=
  PlugInMgr.init "/cwd" "Plugins" false ".plugin.py"

/-- One file matching the multi-dot extension `".plugin.py"`. -/
def dirMulti : Directory :=
  [("foo.plugin.py", ExecOutcome.ok [])]

/-- A single plugin whose top-level code raises a `ValueError`. -/
def dirRaise : Directory :=
  [("bad.py", ExecOutcome.raises (PyError.otherError "ValueError" "boom"))]

/-- A manager configured with extension `".txt"`, for which importlib
finds no loader. -/
def mgrTxt : PlugInMgr :=
  PlugInMgr.init "/cwd" "Plugins" false ".txt"

/-- One `.txt` file; `spec_from_file_location` yields no loader for it. -/
def dirTxt : Directory :=
  [("a.txt", ExecOutcome.ok [])]

/-- A plugin whose own top-level code raises `FileNotFoundError` even
though the plugin file itself exists. -/
def dirEvil : Directory :=
  [("evil.py", ExecOutcome.raises (PyError.fileNotFoundError "plugin opened a missing data file"))]

/-- First state of the C10 scenario: `foo.py` loads fine. -/
def dirFoo1 : Directory :=
  [("foo.py", ExecOutcome.ok [])]

/-- Second state of the C10 scenario: the same file now raises. -/
def dirFoo2 : Directory :=
  [("foo.py", ExecOutcome.raises (PyError.otherError "ValueError" "boom"))]

/-! ## Dictionary lemmas -/

theorem dlookup_dinsert {α : Type} (d : Dict α) (k p : String) (v : α) :
    dlookup p (dinsert k v d) = if p = k then some v else dlookup p d := by
  induction d with
  | nil =>
    by_cases h : p = k
    · subst h
      simp [dinsert, dlookup]
    · simp [dinsert, dlookup, h, Ne.symm h]
  | cons hd tl ih =>
    obtain ⟨k', v'⟩ := hd
    simp only [dinsert]
    by_cases hk : k' = k
    · subst hk
      rw [if_pos rfl]
      by_cases hp : p = k'
      · subst hp
        simp [dlookup]
      · simp [dlookup, hp, Ne.symm hp]
    · rw [if_neg hk]
      by_cases hp' : k' = p
      · subst hp'
        simp [dlookup, hk]
      · simp [dlookup, hp', ih]

theorem dmem_iff_mem_keys {α : Type} (d : Dict α) (k : String) :
    dmem k d = true ↔ k ∈ keys d := by
  induction d with
  | nil => simp [dmem, dlookup, keys]
  | cons hd tl ih =>
    obtain ⟨k', v'⟩ := hd
    by_cases h : k' = k
    · subst h
      simp [dmem, dlookup, keys]
    · simp only [dmem, dlookup, if_neg h, keys, List.map_cons, List.mem_cons]
      rw [dmem, keys] at ih
      rw [ih]
      constructor
      · exact Or.inr
      · rintro (h' | h')
        · exact absurd h'.symm h
        · exact h'

theorem keys_dinsert_mem {α : Type} (d : Dict α) (k : String) (v : α)
    (h : dmem k d = true) : keys (dinsert k v d) = keys d := by
  induction d with
  | nil => simp [dmem, dlookup] at h
  | cons hd tl ih =>
    obtain ⟨k', v'⟩ := hd
    by_cases hk : k' = k
    · subst hk
      simp [dinsert, keys]
    · rw [dmem, dlookup, if_neg hk] at h
      have ih' : List.map Prod.fst (dinsert k v tl) = List.map Prod.fst tl := ih h
      simp only [dinsert, if_neg hk, keys, List.map_cons]
      rw [ih']

theorem keys_dinsert_not_mem {α : Type} (d : Dict α) (k : String) (v : α)
    (h : dmem k d = false) : keys (dinsert k v d) = keys d ++ [k] := by
  induction d with
  | nil => simp [dinsert, keys]
  | cons hd tl ih =>
    obtain ⟨k', v'⟩ := hd
    by_cases hk : k' = k
    · subst hk
      simp [dmem, dlookup] at h
    · rw [dmem, dlookup, if_neg hk] at h
      have ih' : List.map Prod.fst (dinsert k v tl) = List.map Prod.fst tl ++ [k] := ih h
      simp only [dinsert, if_neg hk, keys, List.map_cons, List.cons_append]
      rw [ih']

theorem length_dinsert_mem {α : Type} (d : Dict α) (k : String) (v : α)
    (h : dmem k d = true) : (dinsert k v d).length = d.length := by
  have h1 := keys_dinsert_mem d k v h
  have h2 : (keys (dinsert k v d)).length = (keys d).length := by rw [h1]
  simpa [keys] using h2

theorem mem_keys_dinsert_self {α : Type} (d : Dict α) (k : String) (v : α) :
    k ∈ keys (dinsert k v d) := by
  rw [← dmem_iff_mem_keys, dmem, dlookup_dinsert]
  simp

theorem mem_keys_dinsert_of_mem {α : Type} (d : Dict α) (k p : String) (v : α)
    (h : p ∈ keys d) : p ∈ keys (dinsert k v d) := by
  rw [← dmem_iff_mem_keys, dmem, dlookup_dinsert]
  by_cases hp : p = k
  · simp [hp]
  · rw [← dmem_iff_mem_keys, dmem] at h
    simp [hp, h]

theorem mem_keys_dinsert_elim {α : Type} (d : Dict α) (k p : String) (v : α)
    (h : p ∈ keys (dinsert k v d)) : p = k ∨ p ∈ keys d := by
  rw [← dmem_iff_mem_keys, dmem, dlookup_dinsert] at h
  by_cases hp : p = k
  · exact Or.inl hp
  · rw [if_neg hp] at h
    rw [← dmem_iff_mem_keys, dmem]
    exact Or.inr h

/-! ## Claim C1: the three-valued `has` -/

/-- C1: for every manager state and every pair (identifier, attribute
name), `has` returns `True` exactly when the identifier is a catalog key
and the attribute name is a key of that entry's attributes snapshot;
`False` exactly when the identifier is cataloged but the attribute is
not in its snapshot; and the sentinel `None` (distinct from both) exactly
when the identifier is not in the catalog. -/
theorem has_three_valued (m : PlugInMgr) (p o : String) :
    (m.has p o = some true ↔
      ∃ e, dlookup p m.catalog = some e ∧ dmem o e.attrs = true) ∧
    (m.has p o = some false ↔
      ∃ e, dlookup p m.catalog = some e ∧ dmem o e.attrs = false) ∧
    (m.has p o = none ↔ dlookup p m.catalog = none) := by
  unfold PlugInMgr.has
  cases h : dlookup p m.catalog with
  | none => simp
  | some entry =>
    refine ⟨?_, ?_, by simp⟩
    · constructor
      · intro he
        exact ⟨entry, rfl, by simpa using he⟩
      · rintro ⟨e, he, hm⟩
        cases he
        simpa using hm
    · constructor
      · intro he
        exact ⟨entry, rfl, by simpa using he⟩
      · rintro ⟨e, he, hm⟩
        cases he
        simpa using hm

/-! ## Claim C3: `get` with default -/

/-- C3: `get` returns the stored attribute value when `has` is `True`;
otherwise (identifier absent, or identifier present with the attribute
absent — the two cases produce the same result, hence are
indistinguishable) it returns the default value; and `get` never raises. -/
theorem get_returns_stored_or_default (m : PlugInMgr) (p o : String) (d : Value) :
    (∀ e v, dlookup p m.catalog = some e → dlookup o e.attrs = some v →
      m.get p o d = Except.ok v) ∧
    (m.has p o ≠ some true → m.get p o d = Except.ok d) ∧
    (∃ v, m.get p o d = Except.ok v) := by
  refine ⟨?_, ?_, ?_⟩
  · intro e v he hv
    have hs : m.has p o = some (dmem o e.attrs) := by
      unfold PlugInMgr.has
      rw [he]
    have hm : dmem o e.attrs = true := by
      unfold dmem
      rw [hv]
      rfl
    unfold PlugInMgr.get
    rw [hs, hm]
    simp [pyTruthy, he, hv]
  · intro h
    unfold PlugInMgr.get
    cases hh : m.has p o with
    | none => simp [pyTruthy, hh]
    | some b =>
      cases b with
      | true => exact absurd hh h
      | false => simp [pyTruthy, hh]
  · by_cases ht : m.has p o = some true
    · unfold PlugInMgr.has at ht
      cases he : dlookup p m.catalog with
      | none => rw [he] at ht; exact absurd ht (by simp)
      | some e =>
        rw [he] at ht
        have hm : dmem o e.attrs = true := by simpa using ht
        have hv : (dlookup o e.attrs).isSome := hm
        cases hv' : dlookup o e.attrs with
        | none => rw [hv'] at hv; simp at hv
        | some v =>
          refine ⟨v, ?_⟩
          unfold PlugInMgr.get
          unfold PlugInMgr.has
          rw [he]
          simp [pyTruthy, hm, he, hv']
    · refine ⟨d, ?_⟩
      unfold PlugInMgr.get
      cases hh : m.has p o with
      | none => simp [pyTruthy, hh]
      | some b =>
        cases b with
        | true => exact absurd hh ht
        | false => simp [pyTruthy, hh]

/-- Witness for C3 at a concrete manager: `get` hands back the stored 42
for a present attribute, and the default for an unknown plugin. -/
theorem get_returns_stored_or_default_witness :
    sampleMgr.get "alpha" "VALUE" Value.vnone = Except.ok (Value.vint 42) ∧
    sampleMgr.get "gamma" "VALUE" (Value.vint (-1)) = Except.ok (Value.vint (-1)) := by
  constructor
  · exact (get_returns_stored_or_default sampleMgr "alpha" "VALUE" Value.vnone).1
      sampleEntry (Value.vint 42) (by decide) (by decide)
  · exact (get_returns_stored_or_default sampleMgr "gamma" "VALUE" (Value.vint (-1))).2.1
      (by decide)

/-! ## Discovery-loop lemmas -/

theorem processCandidates_all_ok (dir : Directory) (cs : List String) :
    ∀ m : PlugInMgr, (∀ x ∈ cs, loadOk dir m.plugin_dir x = true) →
    processCandidates dir m cs =
      ({ m with
         candidate_files := m.candidate_files ++ cs.map (fun x => joinPath m.plugin_dir x),
         catalog := cs.foldl (commitStep dir m.plugin_dir) m.catalog }, none) := by
  induction cs with
  | nil =>
    intro m _
    simp [processCandidates]
  | cons x rest ih =>
    intro m h
    have hx : loadOk dir m.plugin_dir x = true := h x (by simp)
    simp only [processCandidates]
    cases hg : get_installed_config dir m.plugin_dir x with
    | error e => rw [loadOk, hg] at hx; simp at hx
    | ok mod =>
      have hrest : ∀ y ∈ rest,
          loadOk dir
            ({ m with
               candidate_files := m.candidate_files ++ [joinPath m.plugin_dir x],
               catalog := dinsert (splitext x).1 (mkEntry mod) m.catalog } : PlugInMgr).plugin_dir
            y = true := by
        intro y hy
        exact h y (by simp [hy])
      dsimp only
      rw [ih _ hrest]
      simp only [List.map_cons, List.foldl_cons, commitStep, hg, List.append_assoc,
        List.singleton_append]

theorem processCandidates_fails (dir : Directory) (pre : List String) :
    ∀ (m : PlugInMgr) (f : String) (post : List String) (e : PyError),
    (∀ x ∈ pre, loadOk dir m.plugin_dir x = true) →
    get_installed_config dir m.plugin_dir f = Except.error e →
    processCandidates dir m (pre ++ f :: post) =
      ({ m with
         candidate_files := m.candidate_files ++
           pre.map (fun x => joinPath m.plugin_dir x) ++ [joinPath m.plugin_dir f],
         catalog := pre.foldl (commitStep dir m.plugin_dir) m.catalog },
       some (wrapError f e)) := by
  induction pre with
  | nil =>
    intro m f post e _ hf
    simp only [List.nil_append, processCandidates, hf]
    simp
  | cons x rest ih =>
    intro m f post e h hf
    have hx : loadOk dir m.plugin_dir x = true := h x (by simp)
    simp only [List.cons_append, processCandidates]
    cases hg : get_installed_config dir m.plugin_dir x with
    | error e' => rw [loadOk, hg] at hx; simp at hx
    | ok mod =>
      have hrest : ∀ y ∈ rest,
          loadOk dir
            ({ m with
               candidate_files := m.candidate_files ++ [joinPath m.plugin_dir x],
               catalog := dinsert (splitext x).1 (mkEntry mod) m.catalog } : PlugInMgr).plugin_dir
            y = true := by
        intro y hy
        exact h y (by simp [hy])
      dsimp only
      simp only [List.append_eq]
      rw [ih _ f post e hrest hf]
      simp only [List.map_cons, List.foldl_cons, commitStep, hg, List.append_assoc,
        List.singleton_append]

theorem processCandidates_err_none_iff (dir : Directory) (cs : List String) :
    ∀ m : PlugInMgr,
    (processCandidates dir m cs).2 = none ↔ ∀ x ∈ cs, loadOk dir m.plugin_dir x = true := by
  induction cs with
  | nil =>
    intro m
    simp [processCandidates]
  | cons x rest ih =>
    intro m
    simp only [processCandidates]
    cases hg : get_installed_config dir m.plugin_dir x with
    | error e =>
      simp only [List.mem_cons]
      constructor
      · intro h
        simp at h
      · intro h
        have hx := h x (Or.inl rfl)
        rw [loadOk, hg] at hx
        simp at hx
    | ok mod =>
      rw [ih]
      simp only [List.mem_cons]
      constructor
      · intro h y hy
        rcases hy with hy | hy
        · subst hy
          rw [loadOk, hg]
        · exact h y hy
      · intro h y hy
        exact h y (Or.inr hy)

/-! ## Claim C2: a failing candidate aborts discovery -/

/-- C2: when the candidate list splits as `pre ++ f :: post` with every
candidate of `pre` loading successfully and `f` failing, the discovery
call raises (second component `some …`), the catalog holds exactly the
entries committed for `pre` on top of the pre-existing catalog (no
rollback), and the result is independent of `post` — the candidates
after the failure are never attempted. -/
theorem discovery_aborts_on_failure (dir : Directory) (m : PlugInMgr)
    (pre post : List String) (f : String) (e : PyError)
    (hglob : globCandidates m.plug_ext dir = pre ++ f :: post)
    (hpre : ∀ x ∈ pre, loadOk dir m.plugin_dir x = true)
    (hf : get_installed_config dir m.plugin_dir f = Except.error e) :
    findcandidate_files dir m =
      ({ m with
         candidate_files := pre.map (fun x => joinPath m.plugin_dir x) ++
           [joinPath m.plugin_dir f],
         catalog := pre.foldl (commitStep dir m.plugin_dir) m.catalog },
       some (wrapError f e)) := by
  unfold findcandidate_files
  rw [hglob]
  rw [processCandidates_fails dir pre { m with candidate_files := [] } f post e hpre hf]
  simp

/-- Witness for C2: on `dirAbort`, discovery commits `ok.py`, aborts at
`bad.py` with the plugin's own `ZeroDivisionError`, and never reaches
`after.py`. -/
theorem discovery_aborts_on_failure_witness :
    findcandidate_files dirAbort mgrPy =
      ({ mgrPy with
         candidate_files := ["ok.py"].map (fun x => joinPath mgrPy.plugin_dir x) ++
           [joinPath mgrPy.plugin_dir "bad.py"],
         catalog := ["ok.py"].foldl (commitStep dirAbort mgrPy.plugin_dir) mgrPy.catalog },
       some (wrapError "bad.py"
         (PyError.otherError "ZeroDivisionError" "division by zero"))) :=
  discovery_aborts_on_failure dirAbort mgrPy ["ok.py"] ["after.py"] "bad.py"
    (PyError.otherError "ZeroDivisionError" "division by zero")
    (by decide) (by decide) (by rfl)

theorem commitStep_ok (dir : Directory) (pd x : String) (mod : PyModule)
    (c : Dict PluginEntry) (hg : get_installed_config dir pd x = Except.ok mod) :
    commitStep dir pd c x = dinsert (splitext x).1 (mkEntry mod) c := by
  unfold commitStep
  rw [hg]

theorem commitStep_err (dir : Directory) (pd x : String) (e : PyError)
    (c : Dict PluginEntry) (hg : get_installed_config dir pd x = Except.error e) :
    commitStep dir pd c x = c := by
  unfold commitStep
  rw [hg]

theorem findcandidate_files_all_ok (dir : Directory) (m : PlugInMgr)
    (hall : ∀ x ∈ globCandidates m.plug_ext dir, loadOk dir m.plugin_dir x = true) :
    findcandidate_files dir m =
      ({ m with
         candidate_files :=
           (globCandidates m.plug_ext dir).map (fun x => joinPath m.plugin_dir x),
         catalog :=
           (globCandidates m.plug_ext dir).foldl (commitStep dir m.plugin_dir) m.catalog },
       none) := by
  unfold findcandidate_files
  rw [processCandidates_all_ok dir (globCandidates m.plug_ext dir)
    { m with candidate_files := [] } hall]
  simp

theorem mem_keys_foldl_commit (dir : Directory) (pd : String) (cs : List String) :
    ∀ (c : Dict PluginEntry) (k : String), k ∈ keys c →
      k ∈ keys (cs.foldl (commitStep dir pd) c) := by
  induction cs with
  | nil => intro c k hk; simpa using hk
  | cons x rest ih =>
    intro c k hk
    simp only [List.foldl_cons]
    apply ih
    unfold commitStep
    cases get_installed_config dir pd x with
    | ok mod => exact mem_keys_dinsert_of_mem c (splitext x).1 k (mkEntry mod) hk
    | error e => exact hk

theorem mem_keys_foldl_commit_self (dir : Directory) (pd : String) (cs : List String) :
    ∀ (c : Dict PluginEntry) (x : String), x ∈ cs → loadOk dir pd x = true →
      (splitext x).1 ∈ keys (cs.foldl (commitStep dir pd) c) := by
  induction cs with
  | nil => intro c x hx; simp at hx
  | cons y rest ih =>
    intro c x hx hok
    simp only [List.foldl_cons]
    rcases List.mem_cons.mp hx with hx | hx
    · subst hx
      apply mem_keys_foldl_commit
      unfold commitStep
      unfold loadOk at hok
      cases hg : get_installed_config dir pd x with
      | ok mod => exact mem_keys_dinsert_self c (splitext x).1 (mkEntry mod)
      | error e => rw [hg] at hok; simp at hok
    · exact ih _ x hx hok

theorem keys_foldl_commit_sub (dir : Directory) (pd : String) (cs : List String) :
    ∀ (c : Dict PluginEntry) (k : String), k ∈ keys (cs.foldl (commitStep dir pd) c) →
      k ∈ keys c ∨ ∃ x ∈ cs, k = (splitext x).1 := by
  induction cs with
  | nil => intro c k hk; exact Or.inl (by simpa using hk)
  | cons x rest ih =>
    intro c k hk
    simp only [List.foldl_cons] at hk
    rcases ih _ k hk with hs | ⟨y, hy, hky⟩
    · unfold commitStep at hs
      cases hg : get_installed_config dir pd x with
      | ok mod =>
        rw [hg] at hs
        rcases mem_keys_dinsert_elim c (splitext x).1 k (mkEntry mod) hs with h | h
        · exact Or.inr ⟨x, by simp, h⟩
        · exact Or.inl h
      | error e =>
        rw [hg] at hs
        exact Or.inl hs
    · exact Or.inr ⟨y, by simp [hy], hky⟩

theorem foldl_commit_stable (dir : Directory) (pd : String) (cs : List String) :
    ∀ c : Dict PluginEntry,
    (∀ x ∈ cs, loadOk dir pd x = true → (splitext x).1 ∈ keys c) →
    keys (cs.foldl (commitStep dir pd) c) = keys c ∧
    (cs.foldl (commitStep dir pd) c).length = c.length := by
  induction cs with
  | nil => intro c _; simp
  | cons x rest ih =>
    intro c h
    simp only [List.foldl_cons]
    cases hg : get_installed_config dir pd x with
    | ok mod =>
      rw [commitStep_ok dir pd x mod c hg]
      have hx : (splitext x).1 ∈ keys c := by
        apply h x (by simp)
        rw [loadOk, hg]
      have hdm : dmem (splitext x).1 c = true := (dmem_iff_mem_keys c _).mpr hx
      have hkeys := keys_dinsert_mem c (splitext x).1 (mkEntry mod) hdm
      have hlen := length_dinsert_mem c (splitext x).1 (mkEntry mod) hdm
      have ihr := ih (dinsert (splitext x).1 (mkEntry mod) c) (by
        intro y hy hok
        rw [hkeys]
        exact h y (by simp [hy]) hok)
      refine ⟨?_, ?_⟩
      · rw [ihr.1, hkeys]
      · rw [ihr.2, hlen]
    | error e =>
      rw [commitStep_err dir pd x e c hg]
      exact ih c (fun y hy hok => h y (by simp [hy]) hok)

/-! ## Claim C7: re-running discovery overwrites, never duplicates -/

/-- C7: when a discovery call succeeds, running discovery again on the
unchanged directory succeeds too, leaves the catalog's key list (hence
its size) unchanged — each entry is overwritten under its same
identifier rather than duplicated — and rebuilds `candidate_files` to the
very same list (it was reset, not appended to). -/
theorem discovery_rerun_overwrites (dir : Directory) (m : PlugInMgr)
    (h1 : (findcandidate_files dir m).2 = none) :
    (findcandidate_files dir (findcandidate_files dir m).1).2 = none ∧
    keys (findcandidate_files dir (findcandidate_files dir m).1).1.catalog
      = keys (findcandidate_files dir m).1.catalog ∧
    (findcandidate_files dir (findcandidate_files dir m).1).1.catalog.length
      = (findcandidate_files dir m).1.catalog.length ∧
    (findcandidate_files dir (findcandidate_files dir m).1).1.candidate_files
      = (findcandidate_files dir m).1.candidate_files := by
  have hall : ∀ x ∈ globCandidates m.plug_ext dir, loadOk dir m.plugin_dir x = true := by
    unfold findcandidate_files at h1
    exact (processCandidates_err_none_iff dir (globCandidates m.plug_ext dir)
      { m with candidate_files := [] }).mp h1
  have h1eq := findcandidate_files_all_ok dir m hall
  rw [h1eq]
  dsimp only
  have hall2 : ∀ x ∈ globCandidates
      ({ m with
         candidate_files :=
           (globCandidates m.plug_ext dir).map (fun x => joinPath m.plugin_dir x),
         catalog :=
           (globCandidates m.plug_ext dir).foldl (commitStep dir m.plugin_dir) m.catalog } :
        PlugInMgr).plug_ext dir,
      loadOk dir
        ({ m with
           candidate_files :=
             (globCandidates m.plug_ext dir).map (fun x => joinPath m.plugin_dir x),
           catalog :=
             (globCandidates m.plug_ext dir).foldl (commitStep dir m.plugin_dir) m.catalog } :
          PlugInMgr).plugin_dir x = true := hall
  have h2eq := findcandidate_files_all_ok dir _ hall2
  rw [h2eq]
  dsimp only
  have hstable := foldl_commit_stable dir m.plugin_dir (globCandidates m.plug_ext dir)
    ((globCandidates m.plug_ext dir).foldl (commitStep dir m.plugin_dir) m.catalog)
    (fun x hx hok => mem_keys_foldl_commit_self dir m.plugin_dir _ m.catalog x hx hok)
  exact ⟨rfl, hstable.1, hstable.2, rfl⟩

/-- Witness for C7: discovering `dirTwo` twice from a fresh manager. -/
theorem discovery_rerun_overwrites_witness :
    (findcandidate_files dirTwo (findcandidate_files dirTwo mgrPy).1).2 = none ∧
    keys (findcandidate_files dirTwo (findcandidate_files dirTwo mgrPy).1).1.catalog
      = keys (findcandidate_files dirTwo mgrPy).1.catalog ∧
    (findcandidate_files dirTwo (findcandidate_files dirTwo mgrPy).1).1.catalog.length
      = (findcandidate_files dirTwo mgrPy).1.catalog.length ∧
    (findcandidate_files dirTwo (findcandidate_files dirTwo mgrPy).1).1.candidate_files
      = (findcandidate_files dirTwo mgrPy).1.candidate_files :=
  discovery_rerun_overwrites dirTwo mgrPy (by rfl)

/-! ## String and splitext lemmas -/

theorem string_data_append (a b : String) : (a ++ b).data = a.data ++ b.data := by
  cases a
  cases b
  rfl

theorem matchesAt_self (cs : List Char) : matchesAt cs cs = true := by
  induction cs with
  | nil => rfl
  | cons c rest ih => simp [matchesAt, ih]

theorem hasSubList_self (cs : List Char) : hasSubList cs cs = true := by
  cases cs with
  | nil => rfl
  | cons c rest => simp [hasSubList, matchesAt_self]

theorem hasSubList_append (c sub : List Char) : hasSubList sub (c ++ sub) = true := by
  induction c with
  | nil => simpa using hasSubList_self sub
  | cons a rest ih => simp [hasSubList, ih]

theorem strContains_data (s sub : String) (c : List Char) (h : s.data = c ++ sub.data) :
    strContains s sub = true := by
  have h0 : strContains s sub = hasSubList sub.data s.data := rfl
  rw [h0, h]
  exact hasSubList_append c sub.data

theorem splitextAux_append (cs : List Char) :
    ∀ st ex, splitextAux cs = some (st, ex) → st ++ ex = cs := by
  induction cs with
  | nil => intro st ex h; simp [splitextAux] at h
  | cons c rest ih =>
    intro st ex h
    simp only [splitextAux] at h
    cases haux : splitextAux rest with
    | some p =>
      obtain ⟨st', ex'⟩ := p
      rw [haux] at h
      simp only [Option.some.injEq, Prod.mk.injEq] at h
      obtain ⟨h1, h2⟩ := h
      subst h1
      subst h2
      have hih := ih st' ex' haux
      simp [hih]
    | none =>
      rw [haux] at h
      by_cases hc : c = '.'
      · rw [if_pos hc] at h
        simp only [Option.some.injEq, Prod.mk.injEq] at h
        obtain ⟨h1, h2⟩ := h
        subst h1
        subst h2
        simp
      · simp [hc] at h

theorem splitext_append (s : String) : (splitext s).1 ++ (splitext s).2 = s := by
  unfold splitext
  cases h : splitextAux s.toList with
  | none =>
    obtain ⟨sd⟩ := s
    exact congrArg String.mk (by simp)
  | some p =>
    obtain ⟨st, ex⟩ := p
    by_cases hdots : st.all (fun c => c = '.') = true
    · simp only [hdots, if_pos]
      obtain ⟨sd⟩ := s
      exact congrArg String.mk (by simp)
    · simp only [hdots, if_neg, Bool.false_eq_true, not_false_eq_true]
      have hd := splitextAux_append s.toList st ex h
      obtain ⟨sd⟩ := s
      exact congrArg String.mk hd

/-! ## Loader equation lemmas -/

theorem get_installed_config_notfound (dir : Directory) (pd f : String)
    (hl : dlookup f dir = none) :
    get_installed_config dir pd f =
      Except.error (PyError.fileNotFoundError
        ("No file found at location " ++ joinPath pd f)) := by
  unfold get_installed_config
  rw [hl]

theorem get_installed_config_found (dir : Directory) (pd f : String)
    (outcome : ExecOutcome) (hl : dlookup f dir = some outcome) :
    get_installed_config dir pd f =
      if sourceLoaderFor f then
        match outcome with
        | ExecOutcome.ok binds =>
            Except.ok { attrs := execIntoModule (initModuleAttrs f (joinPath pd f)) binds }
        | ExecOutcome.raises e => Except.error e
      else
        Except.error (PyError.attributeError
          "NoneType object has no attribute loader") := by
  unfold get_installed_config
  rw [hl]

/-! ## Dunder-name lemmas -/

theorem dmem_dinsert_of_mem {α : Type} (d : Dict α) (k k' : String) (v : α)
    (h : dmem k d = true) : dmem k (dinsert k' v d) = true := by
  unfold dmem at h ⊢
  rw [dlookup_dinsert]
  by_cases hk : k = k'
  · simp [hk]
  · rw [if_neg hk]
    exact h

theorem dmem_execIntoModule (k : String) (binds : Dict Value) :
    ∀ base, dmem k base = true → dmem k (execIntoModule base binds) = true := by
  induction binds with
  | nil =>
    intro base h
    simpa [execIntoModule] using h
  | cons p rest ih =>
    intro base h
    have h0 : execIntoModule base (p :: rest) = execIntoModule (dinsert p.1 p.2 base) rest := rfl
    rw [h0]
    exact ih _ (dmem_dinsert_of_mem base k p.1 p.2 h)

theorem loaded_module_has_dunders (dir : Directory) (pd x : String) (mod : PyModule)
    (hg : get_installed_config dir pd x = Except.ok mod) :
    dmem "__name__" mod.attrs = true ∧ dmem "__doc__" mod.attrs = true := by
  cases hl : dlookup x dir with
  | none =>
    rw [get_installed_config_notfound dir pd x hl] at hg
    exact absurd hg (by simp)
  | some outcome =>
    rw [get_installed_config_found dir pd x outcome hl] at hg
    by_cases hs : sourceLoaderFor x = true
    · rw [if_pos hs] at hg
      cases outcome with
      | ok binds =>
        simp only [Except.ok.injEq] at hg
        subst hg
        constructor <;>
        · apply dmem_execIntoModule
          simp [initModuleAttrs, dmem, dlookup]
      | raises e => exact absurd hg (by simp)
    · rw [if_neg hs] at hg
      exact absurd hg (by simp)

theorem processCandidates_dunderInv (dir : Directory) (cs : List String) :
    ∀ m : PlugInMgr, dunderInv m → dunderInv (processCandidates dir m cs).1 := by
  induction cs with
  | nil =>
    intro m hm
    simpa [processCandidates] using hm
  | cons x rest ih =>
    intro m hm
    simp only [processCandidates]
    cases hg : get_installed_config dir m.plugin_dir x with
    | ok mod =>
      dsimp only
      apply ih
      intro p e hp
      dsimp only at hp
      rw [dlookup_dinsert] at hp
      by_cases hpk : p = (splitext x).1
      · rw [if_pos hpk] at hp
        have he : e = mkEntry mod := by
          cases hp
          rfl
        subst he
        exact loaded_module_has_dunders dir m.plugin_dir x mod hg
      · rw [if_neg hpk] at hp
        exact hm p e hp
    | error e' =>
      dsimp only
      intro p e hp
      exact hm p e hp

/-! ## Claim C9: snapshots contain the implicit dunder names -/

/-- C9: starting from any manager state whose catalog already satisfies
the dunder invariant (a fresh manager does, vacuously), after a discovery
call every cataloged plugin's attributes snapshot contains the implicit
names `__name__` and `__doc__`, and consequently `has(identifier,
"__name__")` returns `True` for every identifier in the catalog. -/
theorem catalog_entries_have_dunder_names (dir : Directory) (m : PlugInMgr)
    (hm : dunderInv m) :
    dunderInv (findcandidate_files dir m).1 ∧
    ∀ p, p ∈ keys (findcandidate_files dir m).1.catalog →
      (findcandidate_files dir m).1.has p "__name__" = some true := by
  have hinv : dunderInv (findcandidate_files dir m).1 := by
    unfold findcandidate_files
    exact processCandidates_dunderInv dir (globCandidates m.plug_ext dir)
      { m with candidate_files := [] } hm
  refine ⟨hinv, ?_⟩
  intro p hp
  have hsome : (dlookup p (findcandidate_files dir m).1.catalog).isSome = true :=
    (dmem_iff_mem_keys _ p).mpr hp
  obtain ⟨e, he⟩ := Option.isSome_iff_exists.mp hsome
  unfold PlugInMgr.has
  rw [he]
  dsimp only
  rw [(hinv p e he).1]

/-- Witness for C9: after discovering `dirTwo` from a fresh manager, the
cataloged plugin `alpha` reports `has("alpha", "__name__") = True`. -/
theorem catalog_entries_have_dunder_names_witness :
    (findcandidate_files dirTwo mgrPy).1.has "alpha" "__name__" = some true := by
  have h := catalog_entries_have_dunder_names dirTwo mgrPy (by
    intro p e he
    simp [mgrPy, PlugInMgr.init, dlookup] at he)
  exact h.2 "alpha" (by decide)

/-! ## Candidate and key provenance lemmas -/

theorem processCandidates_cand_sub (dir : Directory) (cs : List String) :
    ∀ (m : PlugInMgr) (s : String), s ∈ (processCandidates dir m cs).1.candidate_files →
      s ∈ m.candidate_files ∨ ∃ x ∈ cs, s = joinPath m.plugin_dir x := by
  induction cs with
  | nil =>
    intro m s hs
    exact Or.inl (by simpa [processCandidates] using hs)
  | cons x rest ih =>
    intro m s hs
    simp only [processCandidates] at hs
    cases hg : get_installed_config dir m.plugin_dir x with
    | ok mod =>
      rw [hg] at hs
      dsimp only at hs
      rcases ih _ s hs with hm | ⟨y, hy, hsy⟩
      · dsimp only at hm
        rcases List.mem_append.mp hm with h | h
        · exact Or.inl h
        · exact Or.inr ⟨x, by simp, by simpa using h⟩
      · exact Or.inr ⟨y, by simp [hy], by simpa using hsy⟩
    | error e =>
      rw [hg] at hs
      dsimp only at hs
      rcases List.mem_append.mp hs with h | h
      · exact Or.inl h
      · exact Or.inr ⟨x, by simp, by simpa using h⟩

theorem processCandidates_keys_sub (dir : Directory) (cs : List String) :
    ∀ (m : PlugInMgr) (k : String), k ∈ keys (processCandidates dir m cs).1.catalog →
      k ∈ keys m.catalog ∨ ∃ x ∈ cs, k = (splitext x).1 := by
  induction cs with
  | nil =>
    intro m k hk
    exact Or.inl (by simpa [processCandidates] using hk)
  | cons x rest ih =>
    intro m k hk
    simp only [processCandidates] at hk
    cases hg : get_installed_config dir m.plugin_dir x with
    | ok mod =>
      rw [hg] at hk
      dsimp only at hk
      rcases ih _ k hk with hm | ⟨y, hy, hky⟩
      · dsimp only at hm
        rcases mem_keys_dinsert_elim m.catalog (splitext x).1 k (mkEntry mod) hm with h | h
        · exact Or.inr ⟨x, by simp, h⟩
        · exact Or.inl h
      · exact Or.inr ⟨y, by simp [hy], hky⟩
    | error e =>
      rw [hg] at hk
      dsimp only at hk
      exact Or.inl hk

theorem glob_endsWith (ext : String) (dir : Directory) :
    ∀ x ∈ globCandidates ext dir, strEndsWith x ext = true := by
  intro x hx
  simp only [globCandidates, List.mem_map] at hx
  obtain ⟨p, hp, hpx⟩ := hx
  have hf := (List.mem_filter.mp hp).2
  rw [← hpx]
  exact hf

theorem keys_foldl_commit_fresh (dir : Directory) (pd : String) (cs : List String) :
    ∀ c : Dict PluginEntry,
    (∀ x ∈ cs, loadOk dir pd x = true) →
    (cs.map (fun x => (splitext x).1)).Nodup →
    (∀ x ∈ cs, (splitext x).1 ∉ keys c) →
    keys (cs.foldl (commitStep dir pd) c) = keys c ++ cs.map (fun x => (splitext x).1) := by
  induction cs with
  | nil => intro c _ _ _; simp
  | cons x rest ih =>
    intro c hok hnd hfresh
    simp only [List.foldl_cons, List.map_cons]
    cases hg : get_installed_config dir pd x with
    | error e =>
      have hx := hok x (by simp)
      rw [loadOk, hg] at hx
      simp at hx
    | ok mod =>
      rw [commitStep_ok dir pd x mod c hg]
      have hdm : dmem (splitext x).1 c = false := by
        cases hdm : dmem (splitext x).1 c with
        | false => rfl
        | true => exact absurd ((dmem_iff_mem_keys c _).mp hdm) (hfresh x (by simp))
      have hkeys := keys_dinsert_not_mem c (splitext x).1 (mkEntry mod) hdm
      have hnd' := (List.nodup_cons.mp hnd).2
      have hx_not := (List.nodup_cons.mp hnd).1
      have hih := ih (dinsert (splitext x).1 (mkEntry mod) c)
        (fun y hy => hok y (by simp [hy]))
        hnd'
        (by
          intro y hy
          rw [hkeys]
          intro hmem
          rcases List.mem_append.mp hmem with h | h
          · exact hfresh y (by simp [hy]) h
          · have heq : (splitext y).1 = (splitext x).1 := by simpa using h
            have hmem2 : (splitext x).1 ∈ rest.map (fun z => (splitext z).1) := by
              rw [← heq]
              exact List.mem_map_of_mem (fun z => (splitext z).1) hy
            exact hx_not hmem2)
      rw [hih, hkeys]
      simp

/-! ## Claim C4: entry count and non-matching files -/

/-- C4 counterexample: `dirDotPy` holds exactly two files, both matching
the configured extension `".py"` and nothing else; discovery succeeds,
yet the catalog holds one entry, not two — both names have the same
`os.path.splitext` stem `".py"`, so the second overwrites the first. -/
theorem discovery_exact_count_counterexample :
    (∀ p ∈ dirDotPy, strEndsWith p.1 mgrPy.plug_ext = true) ∧
    dirDotPy.length = 2 ∧
    (findcandidate_files dirDotPy mgrPy).2 = none ∧
    (findcandidate_files dirDotPy mgrPy).1.catalog.length = 1 := by
  decide

/-- C4 amended: a successful discovery from an empty catalog populates
one entry per distinct derived identifier (`os.path.splitext` stem);
when those identifiers are pairwise distinct the count is exactly N, the
number of matching files. Files with a non-matching extension never
appear: every candidate path and every catalog key stems from a
glob-matched name, and every glob-matched name ends with the extension. -/
theorem discovery_entries_per_distinct_identifier (dir : Directory) (m : PlugInMgr)
    (hcat : m.catalog = []) :
    ((∀ p ∈ dir, strEndsWith p.1 m.plug_ext = true) →
      (findcandidate_files dir m).2 = none →
      (dir.map (fun p => (splitext p.1).1)).Nodup →
      keys (findcandidate_files dir m).1.catalog = dir.map (fun p => (splitext p.1).1) ∧
      (findcandidate_files dir m).1.catalog.length = dir.length ∧
      (findcandidate_files dir m).1.candidate_files =
        dir.map (fun p => joinPath m.plugin_dir p.1)) ∧
    (∀ x ∈ globCandidates m.plug_ext dir, strEndsWith x m.plug_ext = true) ∧
    (∀ s ∈ (findcandidate_files dir m).1.candidate_files,
      ∃ x ∈ globCandidates m.plug_ext dir, s = joinPath m.plugin_dir x) ∧
    (∀ k ∈ keys (findcandidate_files dir m).1.catalog,
      ∃ x ∈ globCandidates m.plug_ext dir, k = (splitext x).1) := by
  refine ⟨?_, glob_endsWith m.plug_ext dir, ?_, ?_⟩
  · intro hmatch hok hnd
    have hglob : globCandidates m.plug_ext dir = dir.map Prod.fst := by
      unfold globCandidates
      rw [List.filter_eq_self.mpr (fun p hp => hmatch p hp)]
    have hall : ∀ x ∈ globCandidates m.plug_ext dir, loadOk dir m.plugin_dir x = true := by
      unfold findcandidate_files at hok
      exact (processCandidates_err_none_iff dir (globCandidates m.plug_ext dir)
        { m with candidate_files := [] }).mp hok
    have heq := findcandidate_files_all_ok dir m hall
    rw [heq]
    dsimp only
    have hkeys : keys ((globCandidates m.plug_ext dir).foldl
        (commitStep dir m.plugin_dir) m.catalog) =
        dir.map (fun p => (splitext p.1).1) := by
      rw [hglob, hcat]
      rw [keys_foldl_commit_fresh dir m.plugin_dir (dir.map Prod.fst) []
        (by
          intro x hx
          apply hall
          rw [hglob]
          exact hx)
        (by
          rw [List.map_map]
          exact hnd)
        (by
          intro x _
          simp [keys])]
      rw [List.map_map]
      simp [keys]
    refine ⟨hkeys, ?_, ?_⟩
    · have hlen : ((globCandidates m.plug_ext dir).foldl
          (commitStep dir m.plugin_dir) m.catalog).length =
          (keys ((globCandidates m.plug_ext dir).foldl
            (commitStep dir m.plugin_dir) m.catalog)).length := by
        simp [keys]
      rw [hlen, hkeys, List.length_map]
    · rw [hglob, List.map_map]
      rfl
  · intro s hs
    unfold findcandidate_files at hs
    rcases processCandidates_cand_sub dir (globCandidates m.plug_ext dir)
      { m with candidate_files := [] } s hs with h | ⟨x, hx, hsx⟩
    · simp at h
    · exact ⟨x, hx, hsx⟩
  · intro k hk
    unfold findcandidate_files at hk
    rcases processCandidates_keys_sub dir (globCandidates m.plug_ext dir)
      { m with candidate_files := [] } k hk with h | ⟨x, hx, hkx⟩
    · dsimp only at h
      rw [hcat] at h
      simp [keys] at h
    · exact ⟨x, hx, hkx⟩

/-- Witness for the amended C4 on `dirTwo`: two distinct identifiers,
two entries. -/
theorem discovery_entries_per_distinct_identifier_witness :
    keys (findcandidate_files dirTwo mgrPy).1.catalog =
      dirTwo.map (fun p => (splitext p.1).1) ∧
    (findcandidate_files dirTwo mgrPy).1.catalog.length = dirTwo.length := by
  have h := discovery_entries_per_distinct_identifier dirTwo mgrPy (by rfl)
  have ha := h.1 (by decide) (by rfl) (by decide)
  exact ⟨ha.1, ha.2.1⟩

/-! ## Claim C5: identifier derivation -/

/-- C5 counterexample: with the configured multi-dot extension
`".plugin.py"`, the matching file `foo.plugin.py` — whose base name minus
the configured extension is `"foo"` — is cataloged under `"foo.plugin"`
(its `os.path.splitext` stem), and no entry exists under `"foo"`. -/
theorem identifier_strips_configured_extension_counterexample :
    (findcandidate_files dirMulti mgrPluginExt).2 = none ∧
    ("foo" ++ mgrPluginExt.plug_ext = "foo.plugin.py") ∧
    keys (findcandidate_files dirMulti mgrPluginExt).1.catalog = ["foo.plugin"] ∧
    "foo" ∉ keys (findcandidate_files dirMulti mgrPluginExt).1.catalog := by
  decide

/-- C5 amended: the catalog identifier of each committed candidate is
the `os.path.splitext` stem of its base name — the final dot-suffix
removed, not the configured extension. Since stem ++ suffix = name, the
identifier equals the base name minus the configured extension exactly
when the splitext suffix happens to be that extension (the ordinary
single-dot case such as `".py"`), not for multi-dot extensions. -/
theorem identifier_is_splitext_stem (dir : Directory) (m : PlugInMgr) :
    (∀ k ∈ keys (findcandidate_files dir m).1.catalog,
      k ∈ keys m.catalog ∨ ∃ x ∈ globCandidates m.plug_ext dir, k = (splitext x).1) ∧
    (∀ x : String, (splitext x).1 ++ (splitext x).2 = x) := by
  constructor
  · intro k hk
    unfold findcandidate_files at hk
    exact processCandidates_keys_sub dir (globCandidates m.plug_ext dir)
      { m with candidate_files := [] } k hk
  · exact splitext_append

/-- Witness for the amended C5 on `dirMulti`. -/
theorem identifier_is_splitext_stem_witness :
    ((splitext "foo.plugin.py").1 ++ (splitext "foo.plugin.py").2 = "foo.plugin.py") ∧
    ("foo.plugin" ∈ keys mgrPluginExt.catalog ∨
      ∃ x ∈ globCandidates mgrPluginExt.plug_ext dirMulti,
        "foo.plugin" = (splitext x).1) := by
  constructor
  · exact (identifier_is_splitext_stem dirMulti mgrPluginExt).2 "foo.plugin.py"
  · exact (identifier_is_splitext_stem dirMulti mgrPluginExt).1 "foo.plugin" (by decide)

/-! ## Claim C6: which errors name the failing file -/

/-- C6 counterexample: a plugin whose top-level code raises
`ValueError("boom")` aborts discovery with that very exception; its
message does not contain the failing file's name `bad.py`. -/
theorem discovery_error_names_file_counterexample :
    (findcandidate_files dirRaise mgrPy).2 =
      some (PyError.otherError "ValueError" "boom") ∧
    strContains (errText (PyError.otherError "ValueError" "boom")) "bad.py" = false := by
  decide

/-- C6 amended: the errors the manager itself constructs do name the
failing file — the not-found error's message contains the file name, and
an `AttributeError` is rewritten to an `ImportError` whose message
contains the file name — but any other exception raised by the plugin's
top-level code propagates unmodified, so its message need not name the
file. -/
theorem discovery_error_attribution (dir : Directory) (m : PlugInMgr)
    (pre post : List String) (f : String) (e : PyError)
    (hglob : globCandidates m.plug_ext dir = pre ++ f :: post)
    (hpre : ∀ x ∈ pre, loadOk dir m.plugin_dir x = true)
    (hf : get_installed_config dir m.plugin_dir f = Except.error e) :
    (findcandidate_files dir m).2 = some (wrapError f e) ∧
    (dlookup f dir = none → strContains (errText (wrapError f e)) f = true) ∧
    (∀ s, e = PyError.attributeError s → strContains (errText (wrapError f e)) f = true) ∧
    ((∀ s, e ≠ PyError.attributeError s) → wrapError f e = e) := by
  have hrec := processCandidates_fails dir pre { m with candidate_files := [] } f post e hpre hf
  refine ⟨?_, ?_, ?_, ?_⟩
  · unfold findcandidate_files
    rw [hglob, hrec]
  · intro hnone
    rw [get_installed_config_notfound dir m.plugin_dir f hnone] at hf
    simp only [Except.error.injEq] at hf
    subst hf
    simp only [wrapError, errText]
    apply strContains_data _ _ (("No file found at location " ++ (m.plugin_dir ++ "/")).data)
    simp [joinPath, string_data_append, List.append_assoc]
  · intro s hs
    subst hs
    simp only [wrapError, errText]
    apply strContains_data _ _ (("Unable to import Plugin Module - ").data)
    simp [string_data_append]
  · intro hns
    cases e with
    | attributeError s => exact absurd rfl (hns s)
    | fileNotFoundError s => rfl
    | importError s => rfl
    | otherError n s => rfl

/-- Witness for the amended C6: a `.txt` candidate gets no loader, the
resulting `AttributeError` is rewritten to an `ImportError` that names
`a.txt`. -/
theorem discovery_error_attribution_witness :
    (findcandidate_files dirTxt mgrTxt).2 =
      some (PyError.importError "Unable to import Plugin Module - a.txt") ∧
    strContains (errText (PyError.importError "Unable to import Plugin Module - a.txt"))
      "a.txt" = true := by
  have h := discovery_error_attribution dirTxt mgrTxt [] [] "a.txt"
    (PyError.attributeError "NoneType object has no attribute loader")
    (by decide) (by intro x hx; simp at hx) (by rfl)
  have hw : wrapError "a.txt" (PyError.attributeError "NoneType object has no attribute loader")
      = PyError.importError "Unable to import Plugin Module - a.txt" := by decide
  constructor
  · have h1 := h.1
    rw [hw] at h1
    exact h1
  · have h3 := h.2.2.1 "NoneType object has no attribute loader" rfl
    rw [hw] at h3
    exact h3

/-! ## Claim C8: the not-found error of the loader -/

/-- C8 counterexample: `evil.py` exists in the directory, yet
`get_installed_config` raises a `FileNotFoundError` — the plugin's own
top-level code raised one and it propagates — so a not-found error is not
raised only when the resolved path does not exist, and this one does not
name the resolved location. -/
theorem loadmodule_notfound_counterexample :
    (dlookup "evil.py" dirEvil).isSome = true ∧
    get_installed_config dirEvil mgrPy.plugin_dir "evil.py" =
      Except.error (PyError.fileNotFoundError "plugin opened a missing data file") ∧
    strContains "plugin opened a missing data file"
      (joinPath mgrPy.plugin_dir "evil.py") = false := by
  exact ⟨by decide, by rfl, by decide⟩

/-- C8 amended: when the resolved path does not exist the loader raises
the not-found error whose message names the missing location; when the
file exists, the loader itself raises no not-found error — one can still
surface, but only by propagation out of the plugin's own top-level code
(which requires the file to have a source loader). -/
theorem loadmodule_notfound_iff (dir : Directory) (pd f : String) :
    (dlookup f dir = none →
      get_installed_config dir pd f =
        Except.error (PyError.fileNotFoundError
          ("No file found at location " ++ joinPath pd f)) ∧
      strContains ("No file found at location " ++ joinPath pd f) f = true) ∧
    (∀ outcome, dlookup f dir = some outcome →
      ∀ msg, get_installed_config dir pd f =
          Except.error (PyError.fileNotFoundError msg) →
        outcome = ExecOutcome.raises (PyError.fileNotFoundError msg) ∧
        sourceLoaderFor f = true) := by
  constructor
  · intro hnone
    refine ⟨get_installed_config_notfound dir pd f hnone, ?_⟩
    apply strContains_data _ _ (("No file found at location " ++ (pd ++ "/")).data)
    simp [joinPath, string_data_append, List.append_assoc]
  · intro outcome hsome msg hres
    rw [get_installed_config_found dir pd f outcome hsome] at hres
    by_cases hs : sourceLoaderFor f = true
    · rw [if_pos hs] at hres
      cases outcome with
      | ok binds => simp at hres
      | raises e =>
        dsimp only at hres
        simp only [Except.error.injEq] at hres
        exact ⟨by rw [hres], hs⟩
    · rw [if_neg hs] at hres
      simp at hres

/-- Witness for the amended C8: a missing file yields the not-found
error naming its resolved location. -/
theorem loadmodule_notfound_iff_witness :
    get_installed_config dirTwo "/cwd/Plugins" "ghost.py" =
      Except.error (PyError.fileNotFoundError
        ("No file found at location " ++ joinPath "/cwd/Plugins" "ghost.py")) ∧
    strContains ("No file found at location " ++ joinPath "/cwd/Plugins" "ghost.py")
      "ghost.py" = true :=
  (loadmodule_notfound_iff dirTwo "/cwd/Plugins" "ghost.py").1 (by decide)

/-! ## Claim C10: state after an aborted call -/

/-- C10 counterexample: `foo.py` loads fine in a first discovery; the
file then changes so its top-level code raises, and a second discovery
aborts at it. After that failed call the failing file's path is in
`candidate_files` — but its identifier `foo` is still in the catalog
(the stale entry from the first call), contradicting the claim that the
failing identifier is absent after a failed call. -/
theorem failed_candidate_identifier_absent_counterexample :
    ((findcandidate_files dirFoo2 (findcandidate_files dirFoo1 mgrPy).1).2).isSome = true ∧
    joinPath mgrPy.plugin_dir "foo.py" ∈
      (findcandidate_files dirFoo2 (findcandidate_files dirFoo1 mgrPy).1).1.candidate_files ∧
    (splitext "foo.py").1 ∈
      keys (findcandidate_files dirFoo2 (findcandidate_files dirFoo1 mgrPy).1).1.catalog := by
  decide

/-- C10 amended: a call aborting at candidate f records in
`candidate_files` exactly the paths of the candidates enumerated up to
and including f (none after), gains catalog keys only from candidates
strictly before f, and the failing identifier is absent afterwards
provided it was not already cataloged before the call and no earlier
candidate of the call derives the same identifier. -/
theorem discovery_abort_state (dir : Directory) (m : PlugInMgr)
    (pre post : List String) (f : String) (e : PyError)
    (hglob : globCandidates m.plug_ext dir = pre ++ f :: post)
    (hpre : ∀ x ∈ pre, loadOk dir m.plugin_dir x = true)
    (hf : get_installed_config dir m.plugin_dir f = Except.error e) :
    (findcandidate_files dir m).1.candidate_files =
      pre.map (fun x => joinPath m.plugin_dir x) ++ [joinPath m.plugin_dir f] ∧
    (∀ k ∈ keys (findcandidate_files dir m).1.catalog,
      k ∈ keys m.catalog ∨ ∃ x ∈ pre, k = (splitext x).1) ∧
    ((splitext f).1 ∉ keys m.catalog →
      (∀ x ∈ pre, (splitext x).1 ≠ (splitext f).1) →
      (splitext f).1 ∉ keys (findcandidate_files dir m).1.catalog) := by
  have hrec := processCandidates_fails dir pre { m with candidate_files := [] } f post e hpre hf
  refine ⟨?_, ?_, ?_⟩
  · unfold findcandidate_files
    rw [hglob, hrec]
    simp
  · intro k hk
    unfold findcandidate_files at hk
    rw [hglob, hrec] at hk
    dsimp only at hk
    exact keys_foldl_commit_sub dir m.plugin_dir pre m.catalog k hk
  · intro h1 h2 hmem
    unfold findcandidate_files at hmem
    rw [hglob, hrec] at hmem
    dsimp only at hmem
    rcases keys_foldl_commit_sub dir m.plugin_dir pre m.catalog _ hmem with h | ⟨x, hx, hkx⟩
    · exact h1 h
    · exact h2 x hx hkx.symm

/-- Witness for the amended C10 on `dirAbort`: the aborted call records
`ok.py` and `bad.py` (not `after.py`) and no entry under `bad`. -/
theorem discovery_abort_state_witness :
    (findcandidate_files dirAbort mgrPy).1.candidate_files =
      ["ok.py"].map (fun x => joinPath mgrPy.plugin_dir x) ++
        [joinPath mgrPy.plugin_dir "bad.py"] ∧
    (splitext "bad.py").1 ∉ keys (findcandidate_files dirAbort mgrPy).1.catalog := by
  have h := discovery_abort_state dirAbort mgrPy ["ok.py"] ["after.py"] "bad.py"
    (PyError.otherError "ZeroDivisionError" "division by zero")
    (by decide) (by decide) (by rfl)
  exact ⟨h.1, h.2.2 (by decide) (by decide)⟩

end PyPluginMgr
